import Mathlib

/-!
Verification of the ivcap-ai-tool-sdk job-execution machinery.

The development shallowly embeds the result-normalization layer, the batch
pull/push loop and the HTTP endpoint adapter of the repository
(src/src/ivcap_ai_tool/builder.py and examples/test-batch/server.py, with
examples/test-batch/ivcap.py holding a verbatim copy of the push path).
JSON documents are modelled by an explicit syntax tree with integer numbers
(floating point stays outside the embedding); serialization follows the
compact pydantic model_dump_json layout, with the two JSON string escapes
the printer needs (quote and backslash).
-/

set_option maxRecDepth 8000

namespace IvcapVerif

/-! ## JSON documents and their serialization -/

mutual

inductive Json : Type where
  | null : Json
  | bool : Bool → Json
  | num : Int → Json
  | str : String → Json
  | arr : JList → Json
  | obj : JObj → Json

inductive JList : Type where
  | nil : JList
  | cons : Json → JList → JList

inductive JObj : Type where
  | nil : JObj
  | cons : String → Json → JObj → JObj

end

/-- Escape of one character inside a JSON string literal. -/
def escChar (c : Char) : List Char :=
  if c = '"' ∨ c = '\\' then ['\\', c] else [c]

/-- Escape of a whole JSON string body. -/
def escapeChars : List Char → List Char
  | [] => []
  | c :: cs => escChar c ++ escapeChars cs

/-- Decimal digits of a natural number, most significant first. -/
def natChars (n : Nat) : List Char :=
  if _h : n < 10 then [Nat.digitChar n]
  else natChars (n / 10) ++ [Nat.digitChar (n % 10)]
termination_by n
decreasing_by exact Nat.div_lt_self (by omega) (by omega)

/-- Decimal rendering of an integer, matching Python, e.g. "-42". -/
def intChars (n : Int) : List Char :=
  if n < 0 then '-' :: natChars n.natAbs else natChars n.toNat

mutual

def dumpJ : Json → List Char
  | .null => 'n' :: 'u' :: 'l' :: 'l' :: []
  | .bool true => 't' :: 'r' :: 'u' :: 'e' :: []
  | .bool false => 'f' :: 'a' :: 'l' :: 's' :: 'e' :: []
  | .num n => intChars n
  | .str s => '"' :: (escapeChars s.data ++ ['"'])
  | .arr xs => '[' :: (dumpItems xs ++ [']'])
  | .obj kvs => '\x7b' :: (dumpPairs kvs ++ ['\x7d'])

def dumpItems : JList → List Char
  | .nil => []
  | .cons x tl => dumpJ x ++ dumpItemsRest tl

def dumpItemsRest : JList → List Char
  | .nil => []
  | .cons x tl => ',' :: (dumpJ x ++ dumpItemsRest tl)

def dumpPair (k : String) (v : Json) : List Char :=
  '"' :: (escapeChars k.data ++ '"' :: ':' :: dumpJ v)

def dumpPairs : JObj → List Char
  | .nil => []
  | .cons k v tl => dumpPair k v ++ dumpPairsRest tl

def dumpPairsRest : JObj → List Char
  | .nil => []
  | .cons k v tl => ',' :: (dumpPair k v ++ dumpPairsRest tl)

end

/-- Compact JSON serialization (the layout pydantic model_dump_json emits). -/
def Json.dumps (j : Json) : String := String.mk (dumpJ j)

/-! ## JSON parsing -/

def digitVal (c : Char) : Nat := c.toNat - 48

def isDigitChar (c : Char) : Bool := decide (48 ≤ c.toNat) && decide (c.toNat ≤ 57)

/-- Longest digit run, folded onto an accumulator. -/
def parseDigits : List Char → Nat → Nat × List Char
  | [], acc => (acc, [])
  | c :: cs, acc =>
    if isDigitChar c then parseDigits cs (10 * acc + digitVal c) else (acc, c :: cs)

/-- Input whose first character, if any, is not a digit. -/
def noDigitHead : List Char → Bool
  | [] => true
  | c :: _ => !(isDigitChar c)

def parseNum : List Char → Option (Int × List Char)
  | [] => none
  | c :: cs =>
    if c = '-' then
      match cs with
      | [] => none
      | d :: cs2 =>
        if isDigitChar d then
          let p := parseDigits cs2 (digitVal d)
          some (-(p.1 : Int), p.2)
        else none
    else if isDigitChar c then
      let p := parseDigits cs (digitVal c)
      some ((p.1 : Int), p.2)
    else none

/-- Body of a JSON string literal after the opening quote, undoing `escChar`. -/
def parseStrChars : List Char → Option (List Char × List Char)
  | [] => none
  | c :: cs =>
    if c = '"' then some ([], cs)
    else if c = '\\' then
      match cs with
      | [] => none
      | d :: cs2 =>
        match parseStrChars cs2 with
        | some (s, r) => some (d :: s, r)
        | none => none
    else
      match parseStrChars cs with
      | some (s, r) => some (c :: s, r)
      | none => none

/-- The four entry points of the JSON recursive-descent parser at one fuel level. -/
structure Parsers where
  pJson : List Char → Option (Json × List Char)
  pItems : List Char → Option (JList × List Char)
  pPair : List Char → Option ((String × Json) × List Char)
  pPairs : List Char → Option (JObj × List Char)

/-- Depleted-fuel parser pack. -/
def noParse : Parsers := ⟨fun _ => none, fun _ => none, fun _ => none, fun _ => none⟩

/-- One fuel level of the parser, delegating recursion to the pack `P`. -/
def parseStep (P : Parsers) : Parsers where
  pJson cs :=
    match cs with
    | [] => none
    | c :: cs =>
      if c = 'n' then
        match cs with
        | 'u' :: 'l' :: 'l' :: r => some (.null, r)
        | _ => none
      else if c = 't' then
        match cs with
        | 'r' :: 'u' :: 'e' :: r => some (.bool true, r)
        | _ => none
      else if c = 'f' then
        match cs with
        | 'a' :: 'l' :: 's' :: 'e' :: r => some (.bool false, r)
        | _ => none
      else if c = '"' then
        match parseStrChars cs with
        | some (s, r) => some (.str (String.mk s), r)
        | none => none
      else if c = '[' then
        match cs with
        | [] => none
        | d :: cs2 =>
          if d = ']' then some (.arr .nil, cs2)
          else
            match P.pJson (d :: cs2) with
            | some (x, r1) =>
              match P.pItems r1 with
              | some (tl, r2) => some (.arr (.cons x tl), r2)
              | none => none
            | none => none
      else if c = '\x7b' then
        match cs with
        | [] => none
        | d :: cs2 =>
          if d = '\x7d' then some (.obj .nil, cs2)
          else
            match P.pPair (d :: cs2) with
            | some (kv, r1) =>
              match P.pPairs r1 with
              | some (tl, r2) => some (.obj (.cons kv.1 kv.2 tl), r2)
              | none => none
            | none => none
      else
        match parseNum (c :: cs) with
        | some (n, r) => some (.num n, r)
        | none => none
  pItems cs :=
    match cs with
    | [] => none
    | c :: cs =>
      if c = ']' then some (.nil, cs)
      else if c = ',' then
        match P.pJson cs with
        | some (x, r1) =>
          match P.pItems r1 with
          | some (tl, r2) => some (.cons x tl, r2)
          | none => none
        | none => none
      else none
  pPair cs :=
    match cs with
    | [] => none
    | c :: cs =>
      if c = '"' then
        match parseStrChars cs with
        | some (k, r1) =>
          match r1 with
          | ':' :: r2 =>
            match P.pJson r2 with
            | some (v, r3) => some ((String.mk k, v), r3)
            | none => none
          | _ => none
        | none => none
      else none
  pPairs cs :=
    match cs with
    | [] => none
    | c :: cs =>
      if c = '\x7d' then some (.nil, cs)
      else if c = ',' then
        match P.pPair cs with
        | some (kv, r1) =>
          match P.pPairs r1 with
          | some (tl, r2) => some (.cons kv.1 kv.2 tl, r2)
          | none => none
        | none => none
      else none

def parsers : Nat → Parsers
  | 0 => noParse
  | fuel + 1 => parseStep (parsers fuel)

def parseJ (fuel : Nat) (cs : List Char) : Option (Json × List Char) :=
  (parsers fuel).pJson cs

def parseItemsRest (fuel : Nat) (cs : List Char) : Option (JList × List Char) :=
  (parsers fuel).pItems cs

def parsePair (fuel : Nat) (cs : List Char) : Option ((String × Json) × List Char) :=
  (parsers fuel).pPair cs

def parsePairsRest (fuel : Nat) (cs : List Char) : Option (JObj × List Char) :=
  (parsers fuel).pPairs cs

mutual

/-- Fuel each parser entry point needs on printed output. -/
def fneed : Json → Nat
  | .null | .bool _ | .num _ | .str _ => 1
  | .arr .nil => 1
  | .arr (.cons x tl) => 1 + fneed x + tneed tl
  | .obj .nil => 1
  | .obj (.cons _ v tl) => 1 + (1 + fneed v) + oneed tl

def tneed : JList → Nat
  | .nil => 1
  | .cons x tl => 1 + fneed x + tneed tl

def oneed : JObj → Nat
  | .nil => 1
  | .cons _ v tl => 1 + (1 + fneed v) + oneed tl

end

/-- Whole-string JSON decoding, with fuel drawn from the input length. -/
def Json.parse (s : String) : Option Json :=
  match parseJ (s.data.length + 1) s.data with
  | some (j, []) => some j
  | _ => none

/-! ## Python exceptions and the ExecutionError envelope -/

/-- A raised Python failure as the embedding records it: the exception class
name, the message (Python str of the exception) and the traceback.format_exc
text. -/
structure PyExn where
  cls : String
  msg : String
  tb : String

/-- ExecutionError (examples/test-batch/server.py lines 169-176, the same
pydantic class in examples/test-batch/ivcap.py lines 29-36): a field aliased
to "$schema" defaulting to the error schema urn, the error message, the error
type and an optional traceback. -/
structure ExecutionError where
  jschema : String := "urn:ivcap:schema.ai-tool.error.1"
  error : String
  type : String
  traceback : Option String := none

/-- The construction pattern used at server.py lines 48-52 and 101-105:
ExecutionError(error=str(e), type=type(e).__name__,
traceback=traceback.format_exc()). -/
def ExecutionError.ofExn (e : PyExn) : ExecutionError :=
  { error := e.msg, type := e.cls, traceback := some e.tb }

/-- The document model_dump_json(by_alias=True) serializes for an
ExecutionError: the four declared fields in declaration order, the first one
under its "$schema" alias, a missing traceback appearing as null. -/
def ExecutionError.toJson (e : ExecutionError) : Json :=
  .obj (.cons "$schema" (.str e.jschema)
    (.cons "error" (.str e.error)
      (.cons "type" (.str e.type)
        (.cons "traceback"
          (match e.traceback with
           | some t => Json.str t
           | none => Json.null) .nil))))

/-- model_dump_json(by_alias=True) on an ExecutionError. -/
def ExecutionError.dumpJson (e : ExecutionError) : String := Json.dumps e.toJson

/-! ## Worker return values and result normalization (verify_result) -/

/-- A content body as held by BinaryResult/IvcapResult: a Python str, a bytes
value, or an open binary reader whose eventual byte content the embedding
records. -/
inductive ContentV where
  | text (s : String)
  | bin (bs : List Nat)
  | stream (bs : List Nat)

/-- A worker return value as the dynamically typed normalization layer sees
it. A structured value carries the outcome of serializing it: the JSON
document pydantic/json.dumps would produce, or the exception that the
serialization attempt raises. -/
inductive Value where
  | execErr (e : ExecutionError)
  | model (dump : Except PyExn Json)
  | binaryResult (content_type : String) (content : ContentV)
  | text (s : String)
  | bytes (bs : List Nat)
  | binStream (bs : List Nat)
  | other (typeName : String) (dump : Except PyExn Json)

/-- IvcapResult (server.py lines 164-167): BinaryResult plus an error flag and
the optional raw (undecoded) value. -/
structure IvcapResult where
  content : ContentV
  content_type : String
  isError : Bool := false
  raw : Option Value := none

/-- What normalization can hand to the push layer: a success envelope or the
error envelope. -/
inductive Outcome where
  | ivcap (r : IvcapResult)
  | err (e : ExecutionError)

/-- Python isinstance(x, typing.BinaryIO) at server.py line 208:
typing.BinaryIO is a plain class that the real binary readers (io.BytesIO,
io.BufferedReader) do not subclass, so the check is False at runtime (checked
on CPython 3.11); the branch below it is dead code. -/
def pyIsinstanceTypingBinary (_v : Value) : Bool := false

/-- The final lines of verify_result (server.py lines 215-227): the try branch
builds an IvcapResult from json.dumps(result) and the except branch builds an
ExecutionError, but both only rebind the local variable named result; the
function then ends without a return statement, so Python returns None for
every value that reaches this point. -/
def verifyFallThrough (_result : Value) (_job_id : String) : Option Outcome := none

/-- verify_result (server.py lines 179-227). The Option models the Python
return value: none is the implicit None of the fall-through path. -/
def verify_result (result : Value) (job_id : String) : Option Outcome :=
  match result with
  | .execErr e => some (.err e)
  | .model dump =>
    match dump with
    | .ok j =>
      some (.ivcap { content := .text (Json.dumps j),
                     content_type := "application/json",
                     raw := some (.model (.ok j)) })
    | .error ex =>
      some (.err { error := job_id ++ ": cannot json serialise pydantic isntance - " ++ ex.msg,
                   type := ex.cls,
                   traceback := some ex.tb })
  | .binaryResult ct c => some (.ivcap { content := c, content_type := ct })
  | .text s =>
    some (.ivcap { content := .text s, content_type := "text/plain",
                   raw := some (.text s) })
  | .bytes bs =>
    some (.ivcap { content := .bin bs, content_type := "application/octet-stream",
                   raw := some (.bytes bs) })
  | .binStream bs =>
    if pyIsinstanceTypingBinary (.binStream bs) then
      some (.ivcap { content := .stream bs, content_type := "application/octet-stream",
                     raw := some (.binStream bs) })
    else verifyFallThrough (.binStream bs) job_id
  | .other tn dump => verifyFallThrough (.other tn dump) job_id

/-- Decoded view of a stored body under its stored content type. -/
inductive Decoded where
  | text (s : String)
  | json (j : Json)
  | bin (bs : List Nat)

/-- Decode a stored content body according to the stored content type. -/
def decodeContent (ct : String) (c : ContentV) : Option Decoded :=
  if ct = "text/plain" then
    match c with
    | .text s => some (.text s)
    | _ => none
  else if ct = "application/json" then
    match c with
    | .text s => (Json.parse s).map .json
    | _ => none
  else if ct = "application/octet-stream" then
    match c with
    | .bin bs => some (.bin bs)
    | .stream bs => some (.bin bs)
    | .text _ => none
  else none

/-- The stored content type and body of a normalized success outcome. -/
def storedSuccess (o : Option Outcome) : Option (String × ContentV) :=
  match o with
  | some (.ivcap r) => some (r.content_type, r.content)
  | _ => none

/-! ## Dispatcher URL handling -/

/-- Text components of a urllib.parse.urlparse result on a str input; the
model keeps the three components the source uses for scheme://netloc paths. -/
structure ParsedUrl where
  scheme : String
  netloc : String
  path : String

/-- A urlparse result: str components when the input was a str, or the
all-empty bytes components that CPython yields for urlparse(None) (None falls
into the bytes coercion path of _coerce_args and every absent component
decodes to an empty bytes value). -/
inductive UrlParts where
  | strUrl (u : ParsedUrl)
  | bytesEmpty

/-- Characters before and after the first "://" separator, when present. -/
def splitScheme : List Char → Option (List Char × List Char)
  | [] => none
  | ':' :: '/' :: '/' :: rest => some ([], rest)
  | c :: rest =>
    match splitScheme rest with
    | some pr => some (c :: pr.1, pr.2)
    | none => none

/-- The netloc segment (up to the first slash) and the remaining path. -/
def spanNetloc : List Char → List Char × List Char
  | [] => ([], [])
  | '/' :: rest => ([], '/' :: rest)
  | c :: rest =>
    let pr := spanNetloc rest
    (c :: pr.1, pr.2)

/-- urllib.parse.urlparse on a str, for the scheme://netloc[/path] base URLs
this service configures. -/
def urlparseStr (s : String) : ParsedUrl :=
  match splitScheme s.data with
  | some (sch, rest) =>
    let pr := spanNetloc rest
    { scheme := String.mk sch, netloc := String.mk pr.1, path := String.mk pr.2 }
  | none => { scheme := "", netloc := "", path := s }

/-- get_ivcap_url (server.py lines 343-350; ivcap.py lines 100-107): reads
IVCAP_BASE_URL and guards only against the empty string. An unset variable
gives os.getenv = None, the comparison None == "" is False, and urlparse(None)
returns the bytes variant, so the function yields a non-None result. -/
def get_ivcap_url (env : Option String) : Option UrlParts :=
  match env with
  | some base => if base = "" then none else some (.strUrl (urlparseStr base))
  | none => some .bytesEmpty

/-- urlunparse(parts._replace(path=p)) as used at server.py lines 30 and 235:
on str components it rebuilds the URL with the replaced path; on the bytes
components from urlparse(None), combining them with a str path raises
TypeError (CPython: Cannot mix str and non-str arguments). -/
def urlunparseWithPath : UrlParts → String → Except String String
  | .strUrl u, p => .ok (u.scheme ++ "://" ++ u.netloc ++ p)
  | .bytesEmpty, _ => .error "TypeError"

/-! ## Retry loops (fetch_job, push_result) -/

/-- MAX_REQUEST_JOB_ATTEMPTS (server.py line 23). -/
def MAX_REQUEST_JOB_ATTEMPTS : Nat := 4

/-- MAX_DELIVER_RESULT_ATTEMPTS (server.py line 154; ivcap.py line 14). -/
def MAX_DELIVER_RESULT_ATTEMPTS : Nat := 4

/-- The shared retry shape of fetch_job (server.py lines 63-77) and
push_result (server.py lines 264-288; ivcap.py lines 73-97): wait_time starts
at 1; while attempt < MAX, issue the request; on success return, on failure
increment attempt, sleep wait_time and double it. net i says whether the
0-based i-th request succeeds. Result: (succeeded, requests issued, sleeps
performed in order). -/
def attemptLoop (net : Nat → Bool) : Nat → Nat → Nat → Bool × Nat × List Nat
  | 0, _, _ => (false, 0, [])
  | rem + 1, idx, wait =>
    if net idx then (true, 1, [])
    else
      let r := attemptLoop net rem (idx + 1) (wait * 2)
      (r.1, r.2.1 + 1, wait :: r.2.2)

/-- End state of fetch_job. -/
inductive FetchEnd where
  | fetched
  | exitProcess (code : Nat)

/-- Observable trace of one fetch_job call. -/
structure FetchTrace where
  calls : Nat
  sleeps : List Nat
  outcome : FetchEnd

/-- fetch_job (server.py lines 63-77): retried GET with doubling backoff from
1 second; when MAX_REQUEST_JOB_ATTEMPTS attempts all failed, sys.exit(255). -/
def fetch_job (net : Nat → Bool) : FetchTrace :=
  let r := attemptLoop net MAX_REQUEST_JOB_ATTEMPTS 0 1
  { calls := r.2.1, sleeps := r.2.2,
    outcome := if r.1 then .fetched else .exitProcess 255 }

/-! ## push_result -/

/-- The dynamically typed result argument of push_result: the expected
IvcapResult or ExecutionError, or any other value (typeName records
type(result).__name__ for the message built from f-string type(result)). -/
inductive PushValue where
  | ivcap (r : IvcapResult)
  | err (e : ExecutionError)
  | other (typeName : String)

/-- Python str() of a bool: the capitalized words True and False. -/
def pyStrBool : Bool → String
  | true => "True"
  | false => "False"

/-- The POST request push_result issues (identically on every retry):
the target URL, the Content-Type header, the Is-Error header value and the
body. The Authorization header is orthogonal and not modelled. -/
structure PostRecord where
  url : String
  contentType : String
  isErrorHeader : String
  body : ContentV

/-- End state of push_result. -/
inductive PushEnd where
  | warnedNoUrl
  | raised (exnType : String)
  | delivered
  | gaveUp

/-- Observable trace of one push_result call. -/
structure PushTrace where
  posts : Nat := 0
  sleeps : List Nat := []
  post : Option PostRecord := none
  ending : PushEnd

/-- push_result (server.py lines 229-288; ivcap.py lines 38-97 is the same
logic). env is IVCAP_BASE_URL and net i tells whether the i-th POST succeeds.
The initial content_type/content defaults of the source are dead: the
replacement step leaves only IvcapResult or ExecutionError, and both branches
of the following dispatch overwrite them. -/
def push_result (env : Option String) (net : Nat → Bool) (result : PushValue)
    (job_id : String) : PushTrace :=
  match get_ivcap_url env with
  | none => { ending := .warnedNoUrl }
  | some parts =>
    match urlunparseWithPath parts ("/results/" ++ job_id) with
    | .error e => { ending := .raised e }
    | .ok url =>
      let result1 : PushValue :=
        match result with
        | .other tn =>
          .err { error := job_id ++ ": expected \x27BinaryResult\x27 or \x27ExecutionError\x27 but got <class \x27" ++ tn ++ "\x27>",
                 type := "InternalError" }
        | r => r
      let body : ContentV × String × Bool :=
        match result1 with
        | .ivcap r => (r.content, r.content_type, false)
        | .err e => (.text e.dumpJson, "application/json", true)
        | .other _ =>
          (.text (ExecutionError.dumpJson
            { error := "please report unexpected internal error - expected \x27ExecutionError\x27 but got \x7btype(result)\x7d",
              type := "internal_error" }), "application/json", true)
      let r := attemptLoop net MAX_DELIVER_RESULT_ATTEMPTS 0 1
      { posts := r.2.1, sleeps := r.2.2,
        post := some { url := url, contentType := body.2.1,
                       isErrorHeader := pyStrBool body.2.2, body := body.1 },
        ending := if r.1 then .delivered else .gaveUp }

/-! ## The batch loop (wait_for_work, do_job) -/

/-- Python str.startswith, over the character lists. -/
def startsWithChars : List Char → List Char → Bool
  | [], _ => true
  | _ :: _, [] => false
  | p :: ps, c :: cs => p = c && startsWithChars ps cs

/-- Python s.startswith(pat). -/
def pyStartsWith (s pat : String) : Bool := startsWithChars pat.data s.data

/-- A job envelope as served by the dispatcher at GET /next_job. -/
structure Job where
  schema : String
  id : String
  inContentType : String
  inContent : Json

/-- A worker function: its pydantic input is carried as the JSON document it
was decoded from, and a raised failure is the error branch. -/
def Worker : Type := Json → Except PyExn Value

/-- do_job (server.py lines 79-106): a non-JSON content type raises before the
try block; input_model(**jc), modelled by decode, also raises outside the try;
a worker failure (caught as BaseException inside the try) is converted to an
ExecutionError return value. -/
def do_job (job : Job) (decode : Json → Except PyExn Json) (worker : Worker) :
    Except PyExn Value :=
  if job.inContentType ≠ "application/json" then
    .error { cls := "Exception",
             msg := "cannot handle content-type \x27" ++ job.inContentType ++ "\x27",
             tb := "<traceback>" }
  else
    match decode job.inContent with
    | .error ex => .error ex
    | .ok mreq =>
      match worker mreq with
      | .ok resp => .ok resp
      | .error ex => .ok (.execErr (ExecutionError.ofExn ex))

/-- The call verify_result(result, job_id) at server.py line 46 passes two
arguments, but verify_result (line 179) declares three required parameters
(result, job_id, logger); Python raises TypeError at the call site, before
the function body runs. -/
def verifyResultArityError : PyExn :=
  { cls := "TypeError",
    msg := "verify_result() missing 1 required positional argument: \x27logger\x27",
    tb := "<traceback>" }

/-- The call push_result(result, job_id) at server.py line 56 passes two
arguments, but push_result (line 229) declares four required parameters
(result, job_id, authorization, logger); Python raises TypeError at the call
site, before the function body runs. -/
def pushResultArityError : PyExn :=
  { cls := "TypeError",
    msg := "push_result() missing 2 required positional arguments: \x27authorization\x27 and \x27logger\x27",
    tb := "<traceback>" }

/-- Python NameError for the finally block of the done-sentinel path on the
first loop iteration: the log line reads job_id, which no statement has bound
yet. -/
def jobIdNameError : PyExn :=
  { cls := "NameError", msg := "name \x27job_id\x27 is not defined",
    tb := "<traceback>" }

/-- Observable trace of one iteration of the while True body in wait_for_work
(server.py lines 36-56). -/
structure BodyTrace where
  workerCalls : Nat
  posts : Nat
  raisedInFinally : PyExn

/-- One iteration of the while True body (server.py lines 36-56), with resp
the response object the single fetch produced (re-read by response.json()
every iteration) and jobIdBound whether a previous iteration assigned job_id.

Done sentinel: sys.exit(0) raises SystemExit, but the finally block runs
first; its log f-string reads job_id (NameError when unbound), and otherwise
the push_result call itself raises TypeError (two arguments for four
parameters); either failure in the finally replaces SystemExit and escapes
the loop.

Ordinary job: result = do_job(...); a failure from do_job is caught by the
except branch which rebinds result to an ExecutionError, and otherwise the
verify_result call raises TypeError (two arguments for three parameters),
caught by the same except branch; the finally block then calls push_result
with two arguments, raising TypeError out of the loop. No POST to /results
is ever issued. -/
def loopBody (resp : Job) (decode : Json → Except PyExn Json) (worker : Worker)
    (jobIdBound : Bool) : BodyTrace :=
  if pyStartsWith resp.schema "urn:ivcap:schema.service.batch.done" then
    if jobIdBound then
      { workerCalls := 0, posts := 0, raisedInFinally := pushResultArityError }
    else
      { workerCalls := 0, posts := 0, raisedInFinally := jobIdNameError }
  else
    let _resultAfterTry : Outcome :=
      match do_job resp decode worker with
      | .error ex => .err (ExecutionError.ofExn ex)
      | .ok _v => .err (ExecutionError.ofExn verifyResultArityError)
    { workerCalls :=
        if resp.inContentType = "application/json" && (decode resp.inContent).isOk
        then 1 else 0,
      posts := 0,
      raisedInFinally := pushResultArityError }

/-- Observable trace of one wait_for_work call. -/
structure WaitTrace where
  warnedNoUrl : Bool := false
  raisedOut : Option String := none
  fetchCalls : Nat := 0
  fetchExit : Option Nat := none
  workerCalls : Nat := 0
  resultPosts : Nat := 0
  outerCaught : Option String := none
  unfetchedJobs : Nat := 0

/-- wait_for_work (server.py lines 25-61). fetch_job is called exactly once,
at line 33 before the while True loop; the loop re-reads the same response
object, so the dispatcher queue beyond its head (firstJob) is never
requested — unfetchedJobs counts the jobs left unserved. The urlunparse call
at line 30 sits outside the try block, so its TypeError (env absent) escapes
wait_for_work. sys.exit(255) from fetch_job (SystemExit is not an Exception)
also escapes the except clauses. The first loop iteration always ends with an
exception from its finally block (see loopBody); it is an Exception, so the
outer except at line 60 logs it and wait_for_work returns normally. -/
def wait_for_work (env : Option String) (net : Nat → Bool) (firstJob : Job)
    (laterJobs : List Job) (decode : Json → Except PyExn Json)
    (worker : Worker) : WaitTrace :=
  match get_ivcap_url env with
  | none => { warnedNoUrl := true }
  | some parts =>
    match urlunparseWithPath parts "/next_job" with
    | .error e => { raisedOut := some e }
    | .ok _url =>
      let ft := fetch_job net
      match ft.outcome with
      | .exitProcess code =>
        { fetchCalls := ft.calls, fetchExit := some code,
          unfetchedJobs := laterJobs.length + 1 }
      | .fetched =>
        let body := loopBody firstJob decode worker false
        { fetchCalls := ft.calls,
          workerCalls := body.workerCalls,
          resultPosts := body.posts,
          outerCaught := some body.raisedInFinally.cls,
          unfetchedJobs := laterJobs.length }

/-! ## HTTP endpoint adapter (src/src/ivcap_ai_tool/builder.py) -/

/-- A Python runtime value for the comparison at builder.py line 162: the
el.type attribute is a str, the bare name ValueError is a class object. -/
inductive PyVal where
  | str (s : String)
  | cls (name : String)

/-- Python == on these values: equality never holds across kinds (str.__eq__
answers NotImplemented against a class and the fallback is identity). -/
def pyEq : PyVal → PyVal → Bool
  | .str a, .str b => a == b
  | .cls a, .cls b => a == b
  | _, _ => false

/-- ErrorModel (builder.py lines 20-22). -/
structure ErrorModel where
  message : String
  code : Nat

/-- An element the executor queue or job cache delivers to the route: the
stored ExecutionError envelope, or the worker output value. -/
inductive ExecEl (α : Type) where
  | err (e : ExecutionError)
  | val (v : α)

/-- Modelled from the spec: executor.py is imported by builder.py but is not
under src/. Per the spec the Executor wraps the worker invocation so that a
raised failure is converted to the Execution-Error envelope before being
stored, with error kind = the failure class name, message = its string form
and a best-effort trace. -/
def executorEl {α : Type} (w : Except PyExn α) : ExecEl α :=
  match w with
  | .ok v => .val v
  | .error ex => .err (ExecutionError.ofExn ex)

/-- What a route handler produces, as FastAPI sees it. -/
inductive RouteReturn (α : Type) where
  | value (v : α)
  | badRequest (m : ErrorModel)
  | noContent (headers : List (String × String))
  | notFound
  | raised

/-- _return_job_result (builder.py lines 160-167). The source compares the
el.type string against the ValueError class object (never equal), and raises
a bare Exception for every error envelope it does not map — an unhandled
exception that FastAPI answers with a 500. -/
def return_job_result {α : Type} (el : ExecEl α) : RouteReturn α :=
  match el with
  | .err e =>
    if pyEq (.str e.type) (.cls "ValueError") then
      .badRequest { message := e.error, code := 400 }
    else .raised
  | .val v => .value v

/-- The POST route body (builder.py lines 93-105). The bounded
asyncio.wait_for on the executor queue is modelled by an Option: none is the
asyncio.TimeoutError path (the worker did not finish within
opts.max_wait_time), in which case the route answers 204 No Content with the
Location and Retry-Later headers. -/
def do_job_route {α : Type} (el? : Option (ExecEl α)) (pathPre job_id : String)
    (refresh_interval : Nat) : RouteReturn α :=
  match el? with
  | some el => return_job_result el
  | none =>
    .noContent [("Location", pathPre ++ "/" ++ job_id),
                ("Retry-Later", toString refresh_interval)]

/-- Result of executor.lookup_job for the poll route. -/
inductive LookupEl (α : Type) where
  | found (el : ExecEl α)
  | keyError

/-- The GET poll route body (builder.py lines 137-143): a cache hit goes
through _return_job_result, a KeyError becomes the 404 response. -/
def get_job_route {α : Type} (r : LookupEl α) : RouteReturn α :=
  match r with
  | .found el => return_job_result el
  | .keyError => .notFound

/-! ## Concrete fixtures for the batch-loop scenarios -/

/-- An ordinary dispatcher job. -/
def jobA : Job :=
  { schema := "urn:ivcap:schema.ai-tool.request.1", id := "job-a",
    inContentType := "application/json",
    inContent := Json.obj (.cons "n" (.num 3) .nil) }

/-- A second ordinary dispatcher job. -/
def jobB : Job :=
  { schema := "urn:ivcap:schema.ai-tool.request.1", id := "job-b",
    inContentType := "application/json",
    inContent := Json.obj (.cons "n" (.num 4) .nil) }

/-- A third ordinary dispatcher job. -/
def jobC : Job :=
  { schema := "urn:ivcap:schema.ai-tool.request.1", id := "job-c",
    inContentType := "application/json",
    inContent := Json.obj (.cons "n" (.num 5) .nil) }

/-- The done sentinel job. -/
def jobDone : Job :=
  { schema := "urn:ivcap:schema.service.batch.done.1", id := "done",
    inContentType := "application/json", inContent := Json.null }

/-! ## Round-trip of the JSON codec -/

theorem isDigitChar_digitChar (d : Nat) (h : d < 10) :
    isDigitChar (Nat.digitChar d) = true := by
  interval_cases d <;> decide

theorem digitVal_digitChar (d : Nat) (h : d < 10) :
    digitVal (Nat.digitChar d) = d := by
  interval_cases d <;> decide

theorem isDigitChar_ne {c : Char} (hc : isDigitChar c = true) (d : Char)
    (hd : isDigitChar d = false) : c ≠ d := by
  intro h
  rw [h, hd] at hc
  exact Bool.noConfusion hc

theorem natChars_digits (n : Nat) : ∀ c ∈ natChars n, isDigitChar c = true := by
  induction n using Nat.strong_induction_on with
  | _ n ih =>
    rw [natChars]
    split
    · intro c hc
      rw [List.mem_singleton] at hc
      subst hc
      exact isDigitChar_digitChar n (by omega)
    · intro c hmem
      cases List.mem_append.mp hmem with
      | inl hl => exact ih (n / 10) (by omega) c hl
      | inr hr =>
        rw [List.mem_singleton] at hr
        subst hr
        exact isDigitChar_digitChar _ (Nat.mod_lt _ (by omega))

theorem natChars_head (n : Nat) :
    ∃ c cs', natChars n = c :: cs' ∧ isDigitChar c = true := by
  induction n using Nat.strong_induction_on with
  | _ n ih =>
    rw [natChars]
    split
    · exact ⟨Nat.digitChar n, [], rfl, isDigitChar_digitChar n (by omega)⟩
    · obtain ⟨c, cs', heq, hdig⟩ := ih (n / 10) (by omega)
      exact ⟨c, cs' ++ [Nat.digitChar (n % 10)], by rw [heq]; rfl, hdig⟩

theorem noDigitHead_cons (c : Char) (h : isDigitChar c = false) (rest : List Char) :
    noDigitHead (c :: rest) = true := by
  simp [noDigitHead, h]

theorem parseDigits_append (ds : List Char) (hds : ∀ c ∈ ds, isDigitChar c = true)
    (rest : List Char) (hr : noDigitHead rest = true) (acc : Nat) :
    parseDigits (ds ++ rest) acc =
      (ds.foldl (fun a c => 10 * a + digitVal c) acc, rest) := by
  induction ds generalizing acc with
  | nil =>
    cases rest with
    | nil => rfl
    | cons c cs =>
      have hc : isDigitChar c = false := by
        simp [noDigitHead] at hr
        exact hr
      simp [parseDigits, hc]
  | cons d ds ih =>
    have hd : isDigitChar d = true := hds d (List.mem_cons_self d ds)
    simp only [List.cons_append, parseDigits, hd, if_pos]
    exact ih (fun c hc => hds c (List.mem_cons_of_mem d hc)) _

theorem foldl_natChars (n : Nat) : ∀ acc : Nat,
    (natChars n).foldl (fun a c => 10 * a + digitVal c) acc =
      acc * 10 ^ (natChars n).length + n := by
  induction n using Nat.strong_induction_on with
  | _ n ih =>
    intro acc
    rw [natChars]
    split
    · rename_i h
      simp [List.foldl, digitVal_digitChar n h]
      omega
    · rename_i h
      rw [List.foldl_append, ih (n / 10) (by omega) acc]
      simp only [List.foldl, List.length_append, List.length_singleton]
      rw [digitVal_digitChar _ (Nat.mod_lt _ (by omega)), pow_succ, ← mul_assoc]
      generalize acc * 10 ^ (natChars (n / 10)).length = Y
      omega

theorem parseDigits_natChars (m : Nat) (rest : List Char) (hr : noDigitHead rest = true) :
    parseDigits (natChars m ++ rest) 0 = (m, rest) := by
  rw [parseDigits_append (natChars m) (natChars_digits m) rest hr 0, foldl_natChars]
  simp

theorem parseNum_dump (n : Int) (rest : List Char) (hr : noDigitHead rest = true) :
    parseNum (intChars n ++ rest) = some (n, rest) := by
  rw [intChars]
  split
  · rename_i hneg
    obtain ⟨c, cs', heq, hdig⟩ := natChars_head n.natAbs
    rw [heq]
    have hstep : parseDigits ((c :: cs') ++ rest) 0 = (n.natAbs, rest) := by
      rw [← heq]
      exact parseDigits_natChars n.natAbs rest hr
    simp only [parseDigits, hdig, if_pos, List.cons_append] at hstep
    rw [List.append_eq] at hstep
    simp only [List.cons_append, parseNum, if_pos, hdig]
    rw [show (10 * 0 + digitVal c) = digitVal c by omega] at hstep
    rw [hstep]
    simp only [Option.some.injEq, Prod.mk.injEq, and_true]
    omega
  · rename_i hpos
    obtain ⟨c, cs', heq, hdig⟩ := natChars_head n.toNat
    rw [heq]
    have hstep : parseDigits ((c :: cs') ++ rest) 0 = (n.toNat, rest) := by
      rw [← heq]
      exact parseDigits_natChars n.toNat rest hr
    simp only [parseDigits, hdig, if_pos, List.cons_append] at hstep
    rw [List.append_eq] at hstep
    have hnm : c ≠ '-' := isDigitChar_ne hdig '-' (by decide)
    simp only [List.cons_append, parseNum, hnm, if_neg, if_pos, hdig, ite_false]
    rw [show (10 * 0 + digitVal c) = digitVal c by omega] at hstep
    rw [hstep]
    simp only [Option.some.injEq, Prod.mk.injEq, and_true]
    omega

theorem parseStr_dump (l : List Char) : ∀ rest : List Char,
    parseStrChars (escapeChars l ++ '"' :: rest) = some (l, rest) := by
  induction l with
  | nil =>
    intro rest
    rw [escapeChars, List.nil_append, parseStrChars.eq_def]
    simp
  | cons c l ih =>
    intro rest
    rw [escapeChars, escChar]
    split
    · rename_i hc
      simp only [List.cons_append, List.append_assoc, List.nil_append]
      rw [parseStrChars.eq_def]
      simp only [if_neg (show ('\\' : Char) ≠ '"' by decide), if_pos rfl]
      rw [ih rest]
      simp
    · rename_i hc
      push_neg at hc
      simp only [List.cons_append, List.nil_append]
      rw [parseStrChars.eq_def]
      simp only [if_neg hc.1, if_neg hc.2]
      rw [ih rest]

theorem string_mk_data (s : String) : String.mk s.data = s := rfl

theorem fneed_pos (v : Json) : 1 ≤ fneed v := by
  cases v with
  | arr xs => cases xs <;> (rw [fneed]; try omega)
  | obj kvs => cases kvs <;> (rw [fneed]; try omega)
  | null => rw [fneed]
  | bool b => rw [fneed]
  | num n => rw [fneed]
  | str s => rw [fneed]

theorem tneed_pos (tl : JList) : 1 ≤ tneed tl := by
  cases tl <;> (rw [tneed]; try omega)

theorem oneed_pos (otl : JObj) : 1 ≤ oneed otl := by
  cases otl <;> (rw [oneed]; try omega)

theorem intChars_head (n : Int) :
    ∃ d ds, intChars n = d :: ds ∧ (isDigitChar d = true ∨ d = '-') := by
  rw [intChars]
  split
  · exact ⟨'-', natChars n.natAbs, rfl, Or.inr rfl⟩
  · obtain ⟨c, cs', heq, hdig⟩ := natChars_head n.toNat
    exact ⟨c, cs', heq, Or.inl hdig⟩

theorem dumpJ_head (v : Json) :
    ∃ d ds, dumpJ v = d :: ds ∧ d ≠ ']' ∧ d ≠ '\x7d' := by
  cases v with
  | null => exact ⟨'n', ['u', 'l', 'l'], by rw [dumpJ], by decide, by decide⟩
  | bool b =>
    cases b
    · exact ⟨'f', ['a', 'l', 's', 'e'], by rw [dumpJ], by decide, by decide⟩
    · exact ⟨'t', ['r', 'u', 'e'], by rw [dumpJ], by decide, by decide⟩
  | num n =>
    obtain ⟨d, ds, heq, hd⟩ := intChars_head n
    refine ⟨d, ds, by rw [dumpJ]; exact heq, ?_, ?_⟩
    · rcases hd with h | h
      · exact isDigitChar_ne h ']' (by decide)
      · subst h; decide
    · rcases hd with h | h
      · exact isDigitChar_ne h '\x7d' (by decide)
      · subst h; decide
  | str s => exact ⟨'"', escapeChars s.data ++ ['"'], by rw [dumpJ], by decide, by decide⟩
  | arr xs => exact ⟨'[', dumpItems xs ++ [']'], by rw [dumpJ], by decide, by decide⟩
  | obj kvs => exact ⟨'\x7b', dumpPairs kvs ++ ['\x7d'], by rw [dumpJ], by decide, by decide⟩

theorem noDigitHead_items (tl : JList) (rest : List Char) :
    noDigitHead (dumpItemsRest tl ++ ']' :: rest) = true := by
  cases tl with
  | nil =>
    rw [dumpItemsRest, List.nil_append]
    exact noDigitHead_cons ']' (by decide) rest
  | cons x tl =>
    rw [dumpItemsRest, List.cons_append]
    exact noDigitHead_cons ',' (by decide) _

theorem noDigitHead_pairs (otl : JObj) (rest : List Char) :
    noDigitHead (dumpPairsRest otl ++ '\x7d' :: rest) = true := by
  cases otl with
  | nil =>
    rw [dumpPairsRest, List.nil_append]
    exact noDigitHead_cons '\x7d' (by decide) rest
  | cons k v tl =>
    rw [dumpPairsRest, List.cons_append]
    exact noDigitHead_cons ',' (by decide) _

theorem parse_dump_fuel : ∀ fuel : Nat,
    (∀ v rest, fneed v ≤ fuel → noDigitHead rest = true →
      parseJ fuel (dumpJ v ++ rest) = some (v, rest)) ∧
    (∀ tl rest, tneed tl ≤ fuel → noDigitHead rest = true →
      parseItemsRest fuel (dumpItemsRest tl ++ ']' :: rest) = some (tl, rest)) ∧
    (∀ k v rest, 1 + fneed v ≤ fuel → noDigitHead rest = true →
      parsePair fuel (dumpPair k v ++ rest) = some ((k, v), rest)) ∧
    (∀ otl rest, oneed otl ≤ fuel → noDigitHead rest = true →
      parsePairsRest fuel (dumpPairsRest otl ++ '\x7d' :: rest) = some (otl, rest)) := by
  intro fuel
  induction fuel with
  | zero =>
    refine ⟨fun v _ h _ => absurd h (by have := fneed_pos v; omega),
            fun tl _ h _ => absurd h (by have := tneed_pos tl; omega),
            fun k v _ h _ => absurd h (by have := fneed_pos v; omega),
            fun otl _ h _ => absurd h (by have := oneed_pos otl; omega)⟩
  | succ fuel ih =>
    obtain ⟨ihJ, ihT, ihP, ihO⟩ := ih
    refine ⟨?_, ?_, ?_, ?_⟩
    · intro v rest hf hr
      cases v with
      | null => simp [dumpJ, parseJ, parsers, parseStep]
      | bool b => cases b <;> simp [dumpJ, parseJ, parsers, parseStep]
      | num n =>
        obtain ⟨d, ds, heq, hd⟩ := intChars_head n
        have hnum : parseNum (d :: (ds ++ rest)) = some (n, rest) := by
          rw [← List.cons_append, ← heq]
          exact parseNum_dump n rest hr
        have h1 : d ≠ 'n' := by
          rcases hd with h | h
          · exact isDigitChar_ne h 'n' (by decide)
          · subst h; decide
        have h2 : d ≠ 't' := by
          rcases hd with h | h
          · exact isDigitChar_ne h 't' (by decide)
          · subst h; decide
        have h3 : d ≠ 'f' := by
          rcases hd with h | h
          · exact isDigitChar_ne h 'f' (by decide)
          · subst h; decide
        have h4 : d ≠ '"' := by
          rcases hd with h | h
          · exact isDigitChar_ne h '"' (by decide)
          · subst h; decide
        have h5 : d ≠ '[' := by
          rcases hd with h | h
          · exact isDigitChar_ne h '[' (by decide)
          · subst h; decide
        have h6 : d ≠ '\x7b' := by
          rcases hd with h | h
          · exact isDigitChar_ne h '\x7b' (by decide)
          · subst h; decide
        have hlist : dumpJ (.num n) ++ rest = d :: (ds ++ rest) := by
          rw [dumpJ, heq, List.cons_append]
        rw [hlist, parseJ, parsers, parseStep]
        simp [h1, h2, h3, h4, h5, h6, hnum]
      | str s =>
        have hlist : dumpJ (.str s) ++ rest =
            '"' :: (escapeChars s.data ++ '"' :: rest) := by
          rw [dumpJ]
          simp [List.append_assoc]
        rw [hlist, parseJ, parsers, parseStep]
        simp [parseStr_dump, string_mk_data]
      | arr xs =>
        cases xs with
        | nil =>
          have hlist : dumpJ (.arr .nil) ++ rest = '[' :: ']' :: rest := by
            rw [dumpJ, dumpItems]
            simp
          rw [hlist, parseJ, parsers, parseStep]
          simp
        | cons x tl =>
          obtain ⟨d, ds, heqx, hd1, hd2⟩ := dumpJ_head x
          rw [fneed] at hf
          have hx : (parsers fuel).pJson (d :: (ds ++ (dumpItemsRest tl ++ ']' :: rest))) =
              some (x, dumpItemsRest tl ++ ']' :: rest) := by
            rw [← List.cons_append, ← heqx]
            exact ihJ x _ (by have := tneed_pos tl; omega) (noDigitHead_items tl rest)
          have ht : (parsers fuel).pItems (dumpItemsRest tl ++ ']' :: rest) =
              some (tl, rest) :=
            ihT tl rest (by have := fneed_pos x; omega) hr
          have hlist : dumpJ (.arr (.cons x tl)) ++ rest =
              '[' :: d :: (ds ++ (dumpItemsRest tl ++ ']' :: rest)) := by
            rw [dumpJ, dumpItems, heqx]
            simp [List.append_assoc]
          rw [hlist, parseJ, parsers, parseStep]
          simp [hd1, hx, ht]
      | obj kvs =>
        cases kvs with
        | nil =>
          have hlist : dumpJ (.obj .nil) ++ rest = '\x7b' :: '\x7d' :: rest := by
            rw [dumpJ, dumpPairs]
            simp
          rw [hlist, parseJ, parsers, parseStep]
          simp
        | cons k v tl =>
          rw [fneed] at hf
          have hp : (parsers fuel).pPair
              ('"' :: (escapeChars k.data ++ '"' :: ':' :: (dumpJ v ++
                (dumpPairsRest tl ++ '\x7d' :: rest)))) =
              some ((k, v), dumpPairsRest tl ++ '\x7d' :: rest) := by
            have := ihP k v (dumpPairsRest tl ++ '\x7d' :: rest)
              (by have := oneed_pos tl; omega) (noDigitHead_pairs tl rest)
            rw [← this, dumpPair]
            simp only [List.cons_append, List.append_assoc]
            rfl
          have ho : (parsers fuel).pPairs (dumpPairsRest tl ++ '\x7d' :: rest) =
              some (tl, rest) :=
            ihO tl rest (by have := fneed_pos v; omega) hr
          have hlist : dumpJ (.obj (.cons k v tl)) ++ rest =
              '\x7b' :: '"' :: (escapeChars k.data ++ '"' :: ':' :: (dumpJ v ++
                (dumpPairsRest tl ++ '\x7d' :: rest))) := by
            rw [dumpJ, dumpPairs, dumpPair]
            simp [List.append_assoc]
          rw [hlist, parseJ, parsers, parseStep]
          simp [hp, ho]
    · intro tl rest ht hr
      cases tl with
      | nil =>
        have hlist : dumpItemsRest JList.nil ++ ']' :: rest = ']' :: rest := by
          rw [dumpItemsRest, List.nil_append]
        rw [hlist, parseItemsRest, parsers, parseStep]
        simp
      | cons x tl =>
        obtain ⟨d, ds, heqx, hd1, hd2⟩ := dumpJ_head x
        rw [tneed] at ht
        have hx : (parsers fuel).pJson (d :: (ds ++ (dumpItemsRest tl ++ ']' :: rest))) =
            some (x, dumpItemsRest tl ++ ']' :: rest) := by
          rw [← List.cons_append, ← heqx]
          exact ihJ x _ (by have := tneed_pos tl; omega) (noDigitHead_items tl rest)
        have ht2 : (parsers fuel).pItems (dumpItemsRest tl ++ ']' :: rest) =
            some (tl, rest) :=
          ihT tl rest (by have := fneed_pos x; omega) hr
        have hlist : dumpItemsRest (JList.cons x tl) ++ ']' :: rest =
            ',' :: d :: (ds ++ (dumpItemsRest tl ++ ']' :: rest)) := by
          rw [dumpItemsRest, heqx]
          simp [List.append_assoc]
        rw [hlist, parseItemsRest, parsers, parseStep]
        simp [hx, ht2]
    · intro k v rest hpf hr
      have hv : (parsers fuel).pJson (dumpJ v ++ rest) = some (v, rest) :=
        ihJ v rest (by omega) hr
      have hlist : dumpPair k v ++ rest =
          '"' :: (escapeChars k.data ++ '"' :: ':' :: (dumpJ v ++ rest)) := by
        rw [dumpPair]
        simp [List.append_assoc]
      rw [hlist, parsePair, parsers, parseStep]
      simp [parseStr_dump, hv, string_mk_data]
    · intro otl rest ho hr
      cases otl with
      | nil =>
        have hlist : dumpPairsRest JObj.nil ++ '\x7d' :: rest = '\x7d' :: rest := by
          rw [dumpPairsRest, List.nil_append]
        rw [hlist, parsePairsRest, parsers, parseStep]
        simp
      | cons k v tl =>
        rw [oneed] at ho
        have hp : (parsers fuel).pPair
            ('"' :: (escapeChars k.data ++ '"' :: ':' :: (dumpJ v ++
              (dumpPairsRest tl ++ '\x7d' :: rest)))) =
            some ((k, v), dumpPairsRest tl ++ '\x7d' :: rest) := by
          have := ihP k v (dumpPairsRest tl ++ '\x7d' :: rest)
            (by have := oneed_pos tl; omega) (noDigitHead_pairs tl rest)
          rw [← this, dumpPair]
          simp only [List.cons_append, List.append_assoc]
          rfl
        have ho2 : (parsers fuel).pPairs (dumpPairsRest tl ++ '\x7d' :: rest) =
            some (tl, rest) :=
          ihO tl rest (by have := fneed_pos v; omega) hr
        have hlist : dumpPairsRest (JObj.cons k v tl) ++ '\x7d' :: rest =
            ',' :: '"' :: (escapeChars k.data ++ '"' :: ':' :: (dumpJ v ++
              (dumpPairsRest tl ++ '\x7d' :: rest))) := by
          rw [dumpPairsRest, dumpPair]
          simp [List.append_assoc]
        rw [hlist, parsePairsRest, parsers, parseStep]
        simp [hp, ho2]

mutual

theorem fneed_le_dump : ∀ v : Json, fneed v ≤ (dumpJ v).length
  | .null => by rw [fneed, dumpJ]; simp
  | .bool true => by rw [fneed, dumpJ]; simp
  | .bool false => by rw [fneed, dumpJ]; simp
  | .num n => by
    obtain ⟨d, ds, heq, _⟩ := intChars_head n
    rw [fneed, dumpJ, heq]
    simp
  | .str s => by rw [fneed, dumpJ]; simp
  | .arr .nil => by rw [fneed, dumpJ, dumpItems]; simp
  | .arr (.cons x tl) => by
    have h1 := fneed_le_dump x
    have h2 := tneed_le_dump tl
    rw [fneed, dumpJ, dumpItems]
    simp only [List.length_cons, List.length_append, List.length_singleton]
    omega
  | .obj .nil => by rw [fneed, dumpJ, dumpPairs]; simp
  | .obj (.cons k v tl) => by
    have h1 := fneed_le_dump v
    have h2 := oneed_le_dump tl
    rw [fneed, dumpJ, dumpPairs, dumpPair]
    simp only [List.length_cons, List.length_append, List.length_singleton]
    omega

theorem tneed_le_dump : ∀ tl : JList, tneed tl ≤ (dumpItemsRest tl).length + 1
  | .nil => by rw [tneed, dumpItemsRest]; simp
  | .cons x tl => by
    have h1 := fneed_le_dump x
    have h2 := tneed_le_dump tl
    rw [tneed, dumpItemsRest]
    simp only [List.length_cons, List.length_append]
    omega

theorem oneed_le_dump : ∀ otl : JObj, oneed otl ≤ (dumpPairsRest otl).length + 1
  | .nil => by rw [oneed, dumpPairsRest]; simp
  | .cons k v tl => by
    have h1 := fneed_le_dump v
    have h2 := oneed_le_dump tl
    rw [oneed, dumpPairsRest, dumpPair]
    simp only [List.length_cons, List.length_append]
    omega

end

/-- Round-trip of the JSON codec: parsing a serialized document restores it. -/
theorem parse_dumps (v : Json) : Json.parse (Json.dumps v) = some v := by
  show (match parseJ ((dumpJ v).length + 1) (dumpJ v) with
        | some (j, []) => some j
        | _ => none) = some v
  have h := (parse_dump_fuel ((dumpJ v).length + 1)).1 v []
    (by have := fneed_le_dump v; omega) rfl
  rw [List.append_nil] at h
  rw [h]


/-! ## Claim theorems -/

/-- C1: the claim says a worker failure never leaks as a raw failure or 5xx
from the submit or poll endpoint. The code does the opposite:
_return_job_result compares the el.type string with the ValueError class
object (never equal, so the 400 mapping is dead) and then raises a bare
Exception, which FastAPI answers with a 500 — for every error envelope, on
both the POST and the GET route, including ValueError-typed failures. -/
theorem builder_error_leaks_unhandled (ex : PyExn) (pp jid : String) (ri : Nat) :
    do_job_route (α := Json) (some (executorEl (.error ex))) pp jid ri = .raised ∧
    get_job_route (α := Json) (.found (executorEl (.error ex))) = .raised ∧
    return_job_result (α := Json) (.err { error := "bad input", type := "ValueError" }) =
      .raised :=
  ⟨rfl, rfl, rfl⟩

/-- C2: the claim says result normalization always returns exactly one
Outcome, with serialization failures becoming Execution-Error outcomes rather
than an absent result. In the code, every value that reaches the final
json.dumps branch of verify_result — a plain serializable object, a
non-serializable one, and (because isinstance against typing.BinaryIO is
False) a binary stream — produces no return at all: the function falls off
the end and returns None. -/
theorem verify_result_absent_for_plain_values :
    verify_result (.other "dict" (.ok (Json.obj (.cons "a" (.num 1) .nil)))) "job-a" = none ∧
    verify_result (.other "set"
      (.error { cls := "TypeError",
                msg := "Object of type set is not JSON serializable",
                tb := "<traceback>" })) "job-a" = none ∧
    verify_result (.binStream [104, 105]) "job-a" = none :=
  ⟨rfl, rfl, rfl⟩

/-- C3: round-trip of normalization for the success values it accepts — a
text value is stored verbatim under text/plain and decodes back to the same
text, and a serializable structured value is stored under application/json as
its serialized document, which parses back to the same document. -/
theorem normalization_round_trip :
    (∀ s job_id, storedSuccess (verify_result (.text s) job_id) =
        some ("text/plain", .text s) ∧
      decodeContent "text/plain" (.text s) = some (.text s)) ∧
    (∀ j job_id, storedSuccess (verify_result (.model (.ok j)) job_id) =
        some ("application/json", .text (Json.dumps j)) ∧
      decodeContent "application/json" (.text (Json.dumps j)) = some (.json j)) := by
  constructor
  · intro s job_id
    exact ⟨rfl, rfl⟩
  · intro j job_id
    refine ⟨rfl, ?_⟩
    show (Json.parse (Json.dumps j)).map Decoded.json = some (.json j)
    rw [parse_dumps]
    rfl

/-- C4: the claim says the loop fetches, processes and pushes each of 3 jobs
and then exits 0 on the done sentinel without a 4th fetch. The code fetches
only once (fetch_job is called before the while loop and the same response is
re-read each iteration), and the first iteration already aborts the loop: the
verify_result and push_result calls pass two arguments to functions requiring
three and four, so the finally block raises TypeError into the outer except
and wait_for_work returns after 1 fetch, 1 worker call and 0 result posts,
never seeing the done sentinel. -/
theorem batch_loop_processes_only_first_job :
    wait_for_work (some "http://sidecar:8080") (fun _ => true) jobA
        [jobB, jobC, jobDone] (fun j => .ok j) (fun _ => .ok (.text "ok")) =
      { fetchCalls := 1, workerCalls := 1, resultPosts := 0,
        outerCaught := some "TypeError", unfetchedJobs := 3 } :=
  rfl

/-- C5: fetch_job and push_result retry with doubling backoff from 1 second
up to 4 attempts: a push failing its first 3 attempts issues exactly 4 POSTs
with sleeps 1, 2, 4 between them and is delivered; exhausting all 4 fetch
attempts ends in sys.exit(255) after sleeps 1, 2, 4, 8; exhausting all 4 push
attempts only logs and returns (gaveUp); and no input makes fetch_job issue
more than 4 requests. -/
theorem retry_backoff_and_exhaustion :
    (push_result (some "http://sidecar") (fun i => decide (3 ≤ i))
        (.ivcap { content := .text "hello", content_type := "text/plain" })
        "job-a").posts = 4 ∧
    (push_result (some "http://sidecar") (fun i => decide (3 ≤ i))
        (.ivcap { content := .text "hello", content_type := "text/plain" })
        "job-a").sleeps = [1, 2, 4] ∧
    (push_result (some "http://sidecar") (fun i => decide (3 ≤ i))
        (.ivcap { content := .text "hello", content_type := "text/plain" })
        "job-a").ending = .delivered ∧
    fetch_job (fun _ => false) =
      { calls := 4, sleeps := [1, 2, 4, 8], outcome := .exitProcess 255 } ∧
    (push_result (some "http://sidecar") (fun _ => false)
        (.ivcap { content := .text "hello", content_type := "text/plain" })
        "job-b").ending = .gaveUp ∧
    (push_result (some "http://sidecar") (fun _ => false)
        (.ivcap { content := .text "hello", content_type := "text/plain" })
        "job-b").sleeps = [1, 2, 4, 8] ∧
    (∀ net, (fetch_job net).calls ≤ MAX_REQUEST_JOB_ATTEMPTS) := by
  refine ⟨rfl, rfl, rfl, rfl, rfl, rfl, ?_⟩
  intro net
  simp only [fetch_job, MAX_REQUEST_JOB_ATTEMPTS, attemptLoop]
  split_ifs <;> simp

/-- C6 counterexample: the claim says the Is-Error header value is the string
"true" for an error outcome; pushing an ExecutionError actually sends the
Python str(True), the capitalized "True". -/
theorem is_error_header_counterexample :
    (push_result (some "http://sidecar") (fun _ => true)
        (.err { error := "boom", type := "RuntimeError" }) "job-a").post.map
        (fun p => p.isErrorHeader) = some "True" ∧
    (push_result (some "http://sidecar") (fun _ => true)
        (.err { error := "boom", type := "RuntimeError" }) "job-a").post.map
        (fun p => p.isErrorHeader) ≠ some "true" := by
  refine ⟨rfl, ?_⟩
  intro h
  rw [show (push_result (some "http://sidecar") (fun _ => true)
        (.err { error := "boom", type := "RuntimeError" }) "job-a").post.map
        (fun p => p.isErrorHeader) = some "True" from rfl] at h
  exact absurd h (by decide)

/-- C6 amended: every push carries a Content-Type header and an Is-Error
header whose value is Python str(bool) — "True" for an Execution-Error (or
replaced unexpected) outcome and "False" for a success payload — so the
dispatcher can distinguish outcomes without the body. -/
theorem is_error_header_values (r : PushValue) (job_id : String) :
    (push_result (some "http://sidecar") (fun _ => true) r job_id).post.map
        (fun p => (p.contentType, p.isErrorHeader)) =
      some (match r with
            | .ivcap res => (res.content_type, "False")
            | .err _ => ("application/json", "True")
            | .other _ => ("application/json", "True")) := by
  cases r <;> rfl

/-- C7: an ExecutionError built from a raised failure records the failure
class name as type, its string form as error, the traceback text, the fixed
schema urn, and serializes to exactly the four-key document
($schema, error, type, traceback). -/
theorem execution_error_envelope_shape (ex : PyExn) :
    (ExecutionError.ofExn ex).type = ex.cls ∧
    (ExecutionError.ofExn ex).error = ex.msg ∧
    (ExecutionError.ofExn ex).traceback = some ex.tb ∧
    (ExecutionError.ofExn ex).jschema = "urn:ivcap:schema.ai-tool.error.1" ∧
    ExecutionError.dumpJson (ExecutionError.ofExn ex) =
      Json.dumps (Json.obj (.cons "$schema" (.str "urn:ivcap:schema.ai-tool.error.1")
        (.cons "error" (.str ex.msg)
          (.cons "type" (.str ex.cls)
            (.cons "traceback" (.str ex.tb) .nil))))) :=
  ⟨rfl, rfl, rfl, rfl, rfl⟩

/-- C8: a POST whose worker misses the wait window answers 204 No Content
with Location = \x7bpath_prefix\x7d/\x7bjob_id\x7d and Retry-Later = the
configured refresh_interval; a worker value ready in time is returned
directly as the response body. -/
theorem post_route_timeout_response {α : Type} (pathPre job_id : String)
    (refresh_interval : Nat) (v : α) :
    do_job_route (α := α) none pathPre job_id refresh_interval =
      .noContent [("Location", pathPre ++ "/" ++ job_id),
                  ("Retry-Later", toString refresh_interval)] ∧
    do_job_route (some (.val v)) pathPre job_id refresh_interval = .value v :=
  ⟨rfl, rfl⟩

/-- C9: the claim says an absent IVCAP_BASE_URL makes push and fetch warn-only
no-ops. In the code only the empty string is a no-op: an unset variable flows
through urlparse(None) into a non-None bytes result, and the subsequent
urlunparse with a str path raises TypeError in both push_result and
wait_for_work (whose urlunparse sits outside its try block), with no fetch
issued. -/
theorem env_absent_push_fetch_raise :
    get_ivcap_url none = some .bytesEmpty ∧
    (push_result none (fun _ => true)
      (.err { error := "x", type := "Exception" }) "job-a").ending = .raised "TypeError" ∧
    (wait_for_work none (fun _ => true) jobA [] (fun j => .ok j)
      (fun _ => .ok (.text "ok"))).raisedOut = some "TypeError" ∧
    (wait_for_work none (fun _ => true) jobA [] (fun j => .ok j)
      (fun _ => .ok (.text "ok"))).fetchCalls = 0 ∧
    (push_result (some "") (fun _ => true)
      (.err { error := "x", type := "Exception" }) "job-a").ending = .warnedNoUrl ∧
    (wait_for_work (some "") (fun _ => true) jobA [] (fun j => .ok j)
      (fun _ => .ok (.text "ok"))).warnedNoUrl = true :=
  ⟨rfl, rfl, rfl, rfl, rfl, rfl⟩

/-- C10: a push_result argument that is neither IvcapResult nor ExecutionError
is replaced by an ExecutionError of type InternalError whose message names
the unexpected type, and that envelope is delivered to the dispatcher at
/results/\x7bjob_id\x7d flagged as an error. -/
theorem push_unexpected_value_wrapped (tn job_id : String) :
    (push_result (some "http://sidecar") (fun _ => true) (.other tn) job_id).post =
      some { url := "http://sidecar/results/" ++ job_id,
             contentType := "application/json",
             isErrorHeader := "True",
             body := .text (ExecutionError.dumpJson
               { error := job_id ++ ": expected \x27BinaryResult\x27 or \x27ExecutionError\x27 but got <class \x27" ++ tn ++ "\x27>",
                 type := "InternalError" }) } ∧
    (push_result (some "http://sidecar") (fun _ => true) (.other tn) job_id).ending =
      .delivered :=
  ⟨rfl, rfl⟩

end IvcapVerif
